import Mathlib

/-!
Verification development for the dynamic Lagrangian LES module
(`solvers/NSfracStep/LES/DynamicLagrangian.py`).

The module is embedded shallowly: nodal finite-element fields on the CG1
space with `n` degrees of freedom become functions `Fin n → ℚ`, sparse
matrices become `Fin n → Fin n → ℚ`, and the two entry points `les_setup`
and `les_update` become Lean functions over an explicit state record.
The helper routines imported from `DynamicModules` (tophatfilter,
lagrange_average, compute_Lij, compute_Mij, dyn_u_ops) and the external
dolfin substrate are not part of the source file; where a claim depends on
them they are modelled from the specification, and otherwise they are kept
abstract as components of an environment record, so that theorems about the
coordinator quantify over every possible behaviour of those helpers.
-/

namespace DynamicLagrangian

/-- Nodal scalar field on the CG1 space with `n` degrees of freedom. -/
abbrev Fld (n : ℕ) := Fin n → ℚ

/-- Sparse matrix over the CG1 space. -/
abbrev Mat (n : ℕ) := Fin n → Fin n → ℚ

/-- Dirichlet boundary condition on the CG1 space: `bc.apply v` overwrites
the listed dof indices with the listed values.  A descriptor list is a list
of `(index, value)` pairs. -/
abbrev BCList (n : ℕ) := List (Fin n × ℚ)

/-- Application of a list of Dirichlet boundary conditions to a nodal field:
each `(i, c)` entry overwrites dof `i` with the value `c`
(`bc.apply(nut_.vector())`, source line 139). -/
def applyBCs {n : ℕ} (bcs : BCList n) (v : Fld n) : Fld n :=
  bcs.foldl (fun acc bc => Function.update acc bc.1 bc.2) v

/-- Component-wise clip with an upper bound only, the semantics of numpy
`.clip(max=c)` used on source line 132: values above `c` are replaced by
`c`, all other values (including negative ones) pass through unchanged. -/
def npClipMax (x c : ℚ) : ℚ :=
  if c < x then c else x

/-- The pointwise operation of source line 132:
`Cs.vector().set_local((JLM.vector().array()/JMM.vector().array()).clip(max=0.09))`. -/
def cs_clip_update {n : ℕ} (JLM JMM : Fld n) : Fld n :=
  fun i => npClipMax (JLM i / JMM i) (9/100)

/-- Fallible view of the same line: the nodal division `JLM/JMM` is
well-defined only when no nodal value of `JMM` is zero; otherwise the
update has no meaningful result. -/
def cs_clip_update_checked {n : ℕ} (JLM JMM : Fld n) : Option (Fld n) :=
  if ∀ i, JMM i ≠ 0 then some (cs_clip_update JLM JMM) else none

/-- Modelled from the spec: one pass of the discrete top-hat filter of
`DynamicModules.tophatfilter` (not under `src/`): assemble the weighted
nodal integral of the current field (`G_matr` row) and multiply pointwise
by the cached lumped-mass inverse `G_under`. -/
def tophatPass {n : ℕ} (G_matr : Mat n) (G_under : Fld n) (x : Fld n) : Fld n :=
  fun i => G_under i * Finset.univ.sum (fun j => G_matr i j * x j)

/-- Modelled from the spec: `DynamicModules.tophatfilter` (not under
`src/`) applies the top-hat pass `N` times, each pass blending the filtered
field with the previous value by `weight` (`weight = 1` is the pure filter
with no blending); `N = 0` is a no-op. -/
def tophatfilter {n : ℕ} (G_matr : Mat n) (G_under : Fld n) (weight : ℚ) :
    ℕ → Fld n → Fld n
  | 0, x => x
  | N + 1, x =>
      let cur := tophatfilter G_matr G_under weight N x
      fun i => weight * tophatPass G_matr G_under cur i + (1 - weight) * cur i

/-- State bundle returned by `les_setup` and threaded through every
`les_update` call (the dict of source lines 94-99, restricted to the
numeric content of each entry). -/
structure LESState (n : ℕ) where
  Cs : Fld n
  JLM : Fld n
  JMM : Fld n
  nut : Fld n
  u_CG1 : List (Fld n)
  u_filtered : List (Fld n)
  Lij : List (Fld n)
  Mij : List (Fld n)
  Sijcomps : List (Fld n)
  Sijfcomps : List (Fld n)
  delta_CG1_sq : Fld n
  G_matr : Mat n
  G_under : Fld n
  Sijmats : List (Mat n)
  bcs_nut : BCList n
  bcs_u_CG1 : List (BCList n)
  dim : ℕ
  tensdim : ℕ
  uiuj_pairs : List (ℕ × ℕ)

/-- Result record of `DynamicModules.compute_Mij`: the routine overwrites
the `Mij`, `Sijcomps` and `Sijfcomps` fields in place and returns the
resolved-scale strain magnitude `magS`. -/
structure MijResult (n : ℕ) where
  Mij : List (Fld n)
  Sijcomps : List (Fld n)
  Sijfcomps : List (Fld n)
  magS : Fld n

/-- Environment of external helper routines called by `les_update`.  They
live in `DynamicModules` and in the dolfin substrate, outside the source
file, and per the spec are pure functions of their explicit arguments plus
the precomputed operators held in the state; the coordinator theorems
quantify over arbitrary such behaviours. -/
structure LESEnv (n : ℕ) where
  dyn_u_ops : LESState n → List (Fld n) → List (Fld n) × List (Fld n)
  compute_Lij : LESState n → List (Fld n) → List (Fld n) → List (Fld n)
  compute_Mij : ℚ → LESState n → List (Fld n) → List (Fld n) → MijResult n
  lagrange_average : LESState n → List (Fld n) → List (Fld n) → Fld n × Fld n
  nut_eval : Fld n → List (Fld n) → Fld n

/-- The test-filter scale ratio of source line 121: `alpha = 2.0`, a
fixed literal. -/
def alpha : ℚ := 2

/-- Velocity interpolation and filtering step of source line 115:
`dyn_u_ops(**vars())` overwrites the `u_CG1` and `u_filtered` buffers. -/
def les_step_u {n : ℕ} (env : LESEnv n) (u_ab : List (Fld n))
    (st : LESState n) : LESState n :=
  let uu := env.dyn_u_ops st u_ab
  { st with u_CG1 := uu.1, u_filtered := uu.2 }

/-- Leonard tensor step of source line 118:
`compute_Lij(u=u_CG1, uf=u_filtered, **vars())`. -/
def les_step_L {n : ℕ} (env : LESEnv n) (u_ab : List (Fld n))
    (st : LESState n) : LESState n :=
  let s := les_step_u env u_ab st
  { s with Lij := env.compute_Lij s s.u_CG1 s.u_filtered }

/-- Result of the `compute_Mij` call of source line 122, invoked with
`alphaval = alpha`. -/
def les_Mres {n : ℕ} (env : LESEnv n) (u_ab : List (Fld n))
    (st : LESState n) : MijResult n :=
  let s := les_step_L env u_ab st
  env.compute_Mij alpha s s.u_CG1 s.u_filtered

/-- State after the `compute_Mij` call of source line 122. -/
def les_step_M {n : ℕ} (env : LESEnv n) (u_ab : List (Fld n))
    (st : LESState n) : LESState n :=
  let s := les_step_L env u_ab st
  let m := les_Mres env u_ab st
  { s with Mij := m.Mij, Sijcomps := m.Sijcomps, Sijfcomps := m.Sijfcomps }

/-- Lagrangian averaging step of source line 125:
`lagrange_average(J1=JLM, J2=JMM, Aij=Lij, Bij=Mij, **vars())` overwrites
the memory fields `JLM` and `JMM`. -/
def les_step_J {n : ℕ} (env : LESEnv n) (u_ab : List (Fld n))
    (st : LESState n) : LESState n :=
  let s := les_step_M env u_ab st
  let j := env.lagrange_average s s.Lij s.Mij
  { s with JLM := j.1, JMM := j.2 }

/-- Full-recompute branch of `les_update` (source lines 114-139): run the
velocity, Lij, Mij and Lagrangian-average steps, set
`Cs := (JLM/JMM).clip(max=0.09)`, smooth it with two pure top-hat passes,
set `nut := Cs * delta_CG1_sq * magS` and re-apply the nut boundary
conditions. -/
def les_update_full {n : ℕ} (env : LESEnv n) (u_ab : List (Fld n))
    (st : LESState n) : LESState n :=
  let s := les_step_J env u_ab st
  let Cs2 := tophatfilter s.G_matr s.G_under 1 2 (cs_clip_update s.JLM s.JMM)
  let nut1 := applyBCs s.bcs_nut
    (fun i => Cs2 i * s.delta_CG1_sq i * (les_Mres env u_ab st).magS i)
  { s with Cs := Cs2, nut := nut1 }

/-- Per-step entry point `les_update` (source lines 101-139).  When
`tstep % Cs_comp_step != 0` only the eddy-viscosity field is refreshed via
the `nut_()` projection from the last computed `Cs` (source lines 108-112)
and the function returns; otherwise the full recompute runs. -/
def les_update {n : ℕ} (env : LESEnv n) (u_ab : List (Fld n))
    (tstep Cs_comp_step : ℕ) (st : LESState n) : LESState n :=
  if tstep % Cs_comp_step ≠ 0 then
    { st with nut := env.nut_eval st.Cs u_ab }
  else
    les_update_full env u_ab st

/-- Fixed index-pair list for the flattened symmetric tensor in 3-D
(source line 77). -/
def uiuj_pairs_3d : List (ℕ × ℕ) := [(0,0),(0,1),(0,2),(1,1),(1,2),(2,2)]

/-- Fixed index-pair list for the flattened symmetric tensor in 2-D
(source line 80). -/
def uiuj_pairs_2d : List (ℕ × ℕ) := [(0,0),(0,1),(1,1)]

/-- Setup entry point `les_setup` (source lines 17-99), restricted to its
numeric content.  External substrate results appear as inputs: `deltaCG1`
is the CG1 projection of the cell size `delta` (line 31), `lumped` the
assembled vector `assemble(TestFunction(CG1)*dx)` (line 61), `G_matr` the
assembled mass matrix (line 64), `assembleDeriv i` the assembled derivative
matrix `assemble_matrix(p.dx(i)*q*dx)` (line 74), and the boundary-condition
descriptor lists come from `derived_bcs` and the `DirichletBC` constructor
(lines 41, 45-52). -/
def les_setup {n : ℕ} (dim : ℕ) (deltaCG1 : Fld n) (lumped : Fld n)
    (G_matr : Mat n) (assembleDeriv : ℕ → Mat n)
    (bcs_nut : BCList n) (bcs_u_CG1 : List (BCList n)) : LESState n :=
  { Cs := fun _ => 0
    JLM := fun _ => 0 + 1/10^32
    JMM := fun _ => 0 + 1
    nut := fun _ => 0
    u_CG1 := List.replicate dim (fun _ => 0)
    u_filtered := List.replicate dim (fun _ => 0)
    Lij := List.replicate (dim * dim) (fun _ => 0)
    Mij := List.replicate (dim * dim) (fun _ => 0)
    Sijcomps := List.replicate (dim * dim) (fun _ => 0)
    Sijfcomps := List.replicate (dim * dim) (fun _ => 0)
    delta_CG1_sq := fun i => deltaCG1 i ^ 2
    G_matr := G_matr
    G_under := fun i => 1 / lumped i
    Sijmats := (List.range dim).map assembleDeriv
    bcs_nut := bcs_nut
    bcs_u_CG1 := bcs_u_CG1
    dim := dim
    tensdim := if dim = 3 then 6 else 3
    uiuj_pairs := if dim = 3 then uiuj_pairs_3d else uiuj_pairs_2d }

/-- Krylov solver parameter record for the strain-rate solves
(source lines 82-86). -/
structure KrylovParams where
  method : String
  precond : String
  precond_structure : String
  error_on_nonconvergence : Bool
  monitor_convergence : Bool
  report : Bool

/-- The solver object `Sij_sol` as configured at setup (source lines
82-86): conjugate gradients with the default preconditioner, with
`error_on_nonconvergence`, `monitor_convergence` and `report` all set to
`False` and the preconditioner structure set to
`same_nonzero_pattern`. -/
def Sij_sol : KrylovParams :=
  { method := "cg"
    precond := "default"
    precond_structure := "same_nonzero_pattern"
    error_on_nonconvergence := false
    monitor_convergence := false
    report := false }

/-- Modelled from the spec: the solve primitive of the dolfin
`KrylovSolver` substrate (outside `src/`).  A solve that did not converge
raises an error exactly when `error_on_nonconvergence` is set; otherwise
execution continues with the best available iterate. -/
def krylovSolve {α : Type} (p : KrylovParams) (converged : Bool)
    (best : α) : Except String α :=
  if p.error_on_nonconvergence && !converged then
    Except.error ("solver did not converge")
  else
    Except.ok best

/-- Modelled from the spec: the positivity floor applied by
`DynamicModules.lagrange_average` (not under `src/`) to each nodal value of
the memory fields: negative or zero values are floored to a small strictly
positive constant. -/
def lagrange_floor (x : ℚ) : ℚ :=
  max x (1/10^32)

/-- Modelled from the spec: one nodal update of
`DynamicModules.lagrange_average` (not under `src/`): the new value blends
the upstream (path-line advected) old value with the new instantaneous
tensor contraction by the local relaxation weight, then is floored
strictly positive. -/
def lagrange_average_model (w upstream contraction : ℚ) : ℚ :=
  lagrange_floor ((1 - w) * upstream + w * contraction)

/-! Helper lemmas about the clip and the top-hat filter. -/

theorem npClipMax_le (x c : ℚ) : npClipMax x c ≤ c := by
  unfold npClipMax
  split
  · exact le_rfl
  · exact le_of_not_lt (by assumption)

theorem tophatPass_le {n : ℕ} (M : Mat n) (Gu : Fld n) (x : Fld n) (c : ℚ)
    (hM : ∀ i j, 0 ≤ M i j) (hGu : ∀ i, 0 ≤ Gu i)
    (hrow : ∀ i, Gu i * Finset.univ.sum (fun j => M i j) = 1)
    (hx : ∀ j, x j ≤ c) : ∀ i, tophatPass M Gu x i ≤ c := by
  intro i
  have hsum : Finset.univ.sum (fun j => M i j * x j) ≤
      Finset.univ.sum (fun j => M i j * c) :=
    Finset.sum_le_sum (fun j _ => mul_le_mul_of_nonneg_left (hx j) (hM i j))
  have h2 : Gu i * Finset.univ.sum (fun j => M i j * x j) ≤
      Gu i * Finset.univ.sum (fun j => M i j * c) :=
    mul_le_mul_of_nonneg_left hsum (hGu i)
  have h3 : Gu i * Finset.univ.sum (fun j => M i j * c) = c := by
    rw [← Finset.sum_mul, ← mul_assoc, hrow i, one_mul]
  exact le_trans h2 (le_of_eq h3)

theorem tophatfilter_le {n : ℕ} (M : Mat n) (Gu : Fld n) (w : ℚ)
    (hw0 : 0 ≤ w) (hw1 : w ≤ 1)
    (hM : ∀ i j, 0 ≤ M i j) (hGu : ∀ i, 0 ≤ Gu i)
    (hrow : ∀ i, Gu i * Finset.univ.sum (fun j => M i j) = 1)
    (c : ℚ) (N : ℕ) (x : Fld n) (hx : ∀ j, x j ≤ c) :
    ∀ i, tophatfilter M Gu w N x i ≤ c := by
  induction N with
  | zero => exact hx
  | succ N ih =>
    intro i
    show w * tophatPass M Gu (tophatfilter M Gu w N x) i +
        (1 - w) * tophatfilter M Gu w N x i ≤ c
    have hp : tophatPass M Gu (tophatfilter M Gu w N x) i ≤ c :=
      tophatPass_le M Gu _ c hM hGu hrow ih i
    have h2 : tophatfilter M Gu w N x i ≤ c := ih i
    have hw2 : (0:ℚ) ≤ 1 - w := by linarith
    calc w * tophatPass M Gu (tophatfilter M Gu w N x) i +
          (1 - w) * tophatfilter M Gu w N x i
        ≤ w * c + (1 - w) * c :=
          add_le_add (mul_le_mul_of_nonneg_left hp hw0)
            (mul_le_mul_of_nonneg_left h2 hw2)
      _ = c := by ring

/-! Claim theorems. -/

/-- C10: the clip of source line 132 is one-sided: the updated nodal Cs
value equals `min(JLM_i/JMM_i, 0.09)`, and any ratio at or below 0.09 —
including a negative one — is stored unchanged, with no lower bound imposed
at this stage. -/
theorem cs_clip_one_sided {n : ℕ} (JLM JMM : Fld n) (i : Fin n) :
    cs_clip_update JLM JMM i = min (JLM i / JMM i) (9/100) ∧
    (JLM i / JMM i ≤ 9/100 → cs_clip_update JLM JMM i = JLM i / JMM i) := by
  constructor
  · unfold cs_clip_update npClipMax
    split
    · exact (min_eq_right (le_of_lt (by assumption))).symm
    · exact (min_eq_left (le_of_not_lt (by assumption))).symm
  · intro h
    unfold cs_clip_update npClipMax
    rw [if_neg (not_lt.mpr h)]

/-- Witness for C10 at a negative ratio: with `JLM = -5`, `JMM = 1` the
stored value is the unclipped ratio `-5`. -/
theorem cs_clip_one_sided_witness :
    cs_clip_update (n := 1) (fun _ => -5) (fun _ => 1) 0 = (-5 : ℚ) / 1 :=
  (cs_clip_one_sided (fun _ => -5) (fun _ => 1) 0).2 (by norm_num)

/-- C8: at setup the Lagrangian memory fields start at `JLM = 1e-32`
(small and strictly positive) and `JMM = 1`, so the coefficient ratio is
well-defined from the first step. -/
theorem les_setup_JLM_JMM_init {n : ℕ} (dim : ℕ) (deltaCG1 lumped : Fld n)
    (G_matr : Mat n) (assembleDeriv : ℕ → Mat n)
    (bcs_nut : BCList n) (bcs_u_CG1 : List (BCList n)) :
    ∀ i,
      (les_setup dim deltaCG1 lumped G_matr assembleDeriv bcs_nut bcs_u_CG1).JLM i
        = 1/10^32 ∧
      0 < (les_setup dim deltaCG1 lumped G_matr assembleDeriv bcs_nut bcs_u_CG1).JLM i ∧
      (les_setup dim deltaCG1 lumped G_matr assembleDeriv bcs_nut bcs_u_CG1).JMM i = 1 ∧
      (les_setup dim deltaCG1 lumped G_matr assembleDeriv bcs_nut bcs_u_CG1).JMM i ≠ 0 := by
  intro i
  refine ⟨by simp [les_setup], by norm_num [les_setup], by simp [les_setup], ?_⟩
  simp [les_setup]

/-- Witness for C8 on the one-node 2-D fixture inputs. -/
theorem les_setup_JLM_JMM_init_witness :
    (les_setup (n := 1) 2 (fun _ => 1) (fun _ => 1) (fun _ _ => 1)
        (fun _ => fun _ _ => 0) [] []).JLM 0 = 1/10^32 ∧
    0 < (les_setup (n := 1) 2 (fun _ => 1) (fun _ => 1) (fun _ _ => 1)
        (fun _ => fun _ _ => 0) [] []).JLM 0 ∧
    (les_setup (n := 1) 2 (fun _ => 1) (fun _ => 1) (fun _ _ => 1)
        (fun _ => fun _ _ => 0) [] []).JMM 0 = 1 ∧
    (les_setup (n := 1) 2 (fun _ => 1) (fun _ => 1) (fun _ _ => 1)
        (fun _ => fun _ _ => 0) [] []).JMM 0 ≠ 0 :=
  les_setup_JLM_JMM_init 2 (fun _ => 1) (fun _ => 1) (fun _ _ => 1)
    (fun _ => fun _ _ => 0) [] [] 0

/-- C6: the strain-rate Krylov solver is configured at setup with
`error_on_nonconvergence = False`, so a solve never raises: for every
convergence outcome it returns the best available iterate. -/
theorem Sij_sol_never_raises :
    Sij_sol.error_on_nonconvergence = false ∧
    ∀ (α : Type) (converged : Bool) (best : α),
      krylovSolve Sij_sol converged best = Except.ok best := by
  refine ⟨rfl, ?_⟩
  intro α c b
  unfold krylovSolve Sij_sol
  simp

/-- C5: the nodal division `JLM/JMM` of source line 132 never divides by
zero: whenever every nodal value of `JMM` is strictly positive the checked
coefficient update succeeds, and the Lagrangian-average model (which floors
its result strictly positive per the spec) always produces strictly
positive values, establishing that invariant. -/
theorem cs_division_well_defined {n : ℕ} (JLM JMM : Fld n)
    (h : ∀ i, 0 < JMM i) :
    cs_clip_update_checked JLM JMM = some (cs_clip_update JLM JMM) ∧
    ∀ w upstream contraction, 0 < lagrange_average_model w upstream contraction := by
  constructor
  · unfold cs_clip_update_checked
    rw [if_pos]
    intro i
    exact ne_of_gt (h i)
  · intro w upstream contraction
    unfold lagrange_average_model lagrange_floor
    have hpos : (0:ℚ) < 1/10^32 := by norm_num
    exact lt_of_lt_of_le hpos (le_max_right _ _)

/-- Witness for C5: with `JLM = 100`, `JMM = 1` on one node the checked
coefficient update succeeds. -/
theorem cs_division_well_defined_witness :
    cs_clip_update_checked (n := 1) (fun _ => 100) (fun _ => 1) =
      some (cs_clip_update (fun _ => 100) (fun _ => 1)) :=
  (cs_division_well_defined (fun _ => 100) (fun _ => 1) (by decide)).1

/-- C9: the cached nodal delta-squared field, the derivative matrices, the
filter mass matrix and its lumped-inverse diagonal, and both
boundary-condition descriptor lists are never mutated by `les_update`, on
either branch, for every environment, velocity, step index and state. -/
theorem les_update_preserves_operators {n : ℕ} (env : LESEnv n)
    (u_ab : List (Fld n)) (tstep K : ℕ) (st : LESState n) :
    (les_update env u_ab tstep K st).delta_CG1_sq = st.delta_CG1_sq ∧
    (les_update env u_ab tstep K st).G_matr = st.G_matr ∧
    (les_update env u_ab tstep K st).G_under = st.G_under ∧
    (les_update env u_ab tstep K st).Sijmats = st.Sijmats ∧
    (les_update env u_ab tstep K st).bcs_nut = st.bcs_nut ∧
    (les_update env u_ab tstep K st).bcs_u_CG1 = st.bcs_u_CG1 := by
  unfold les_update
  split
  · exact ⟨rfl, rfl, rfl, rfl, rfl, rfl⟩
  · unfold les_update_full les_step_J les_step_M les_step_L les_step_u
    exact ⟨rfl, rfl, rfl, rfl, rfl, rfl⟩

/-- C3: on a skip step (step index not divisible by the recompute
interval) `les_update` leaves `Cs`, `JLM`, `JMM` — and every tensor
buffer — unchanged, and only refreshes the eddy-viscosity field from the
last computed `Cs` via the `nut_()` projection. -/
theorem les_update_skip_step {n : ℕ} (env : LESEnv n) (u_ab : List (Fld n))
    (tstep K : ℕ) (st : LESState n) (h : tstep % K ≠ 0) :
    (les_update env u_ab tstep K st).Cs = st.Cs ∧
    (les_update env u_ab tstep K st).JLM = st.JLM ∧
    (les_update env u_ab tstep K st).JMM = st.JMM ∧
    (les_update env u_ab tstep K st).Lij = st.Lij ∧
    (les_update env u_ab tstep K st).Mij = st.Mij ∧
    (les_update env u_ab tstep K st).Sijcomps = st.Sijcomps ∧
    (les_update env u_ab tstep K st).Sijfcomps = st.Sijfcomps ∧
    (les_update env u_ab tstep K st).u_CG1 = st.u_CG1 ∧
    (les_update env u_ab tstep K st).u_filtered = st.u_filtered ∧
    (les_update env u_ab tstep K st).nut = env.nut_eval st.Cs u_ab := by
  unfold les_update
  rw [if_pos h]
  exact ⟨rfl, rfl, rfl, rfl, rfl, rfl, rfl, rfl, rfl, rfl⟩

/-! Concrete one-node fixtures used by the witnesses and counterexamples:
a 2-D setup state whose mass matrix and lumped inverse make the top-hat
filter the identity, and environments whose abstract helpers return simple
concrete fields. -/

/-- One-node 2-D state produced by `les_setup` with unit geometry data. -/
def wSt : LESState 1 :=
  les_setup 2 (fun _ => 1) (fun _ => 1) (fun _ _ => 1) (fun _ => fun _ _ => 0) [] []

/-- Environment whose helpers keep the state fields and report unit strain
magnitude. -/
def wEnv : LESEnv 1 :=
  { dyn_u_ops := fun st _ => (st.u_CG1, st.u_filtered)
    compute_Lij := fun st _ _ => st.Lij
    compute_Mij := fun _ st _ _ =>
      { Mij := st.Mij, Sijcomps := st.Sijcomps, Sijfcomps := st.Sijfcomps,
        magS := fun _ => 1 }
    lagrange_average := fun st _ _ => (st.JLM, st.JMM)
    nut_eval := fun Cs _ => Cs }

/-- Witness for C3: at `tstep = 1`, `Cs_comp_step = 2` the skip branch
leaves every internal field of the concrete fixture unchanged and
refreshes `nut` from the last `Cs`. -/
theorem les_update_skip_step_witness :
    (les_update wEnv [] 1 2 wSt).Cs = wSt.Cs ∧
    (les_update wEnv [] 1 2 wSt).JLM = wSt.JLM ∧
    (les_update wEnv [] 1 2 wSt).JMM = wSt.JMM ∧
    (les_update wEnv [] 1 2 wSt).Lij = wSt.Lij ∧
    (les_update wEnv [] 1 2 wSt).Mij = wSt.Mij ∧
    (les_update wEnv [] 1 2 wSt).Sijcomps = wSt.Sijcomps ∧
    (les_update wEnv [] 1 2 wSt).Sijfcomps = wSt.Sijfcomps ∧
    (les_update wEnv [] 1 2 wSt).u_CG1 = wSt.u_CG1 ∧
    (les_update wEnv [] 1 2 wSt).u_filtered = wSt.u_filtered ∧
    (les_update wEnv [] 1 2 wSt).nut = wEnv.nut_eval wSt.Cs [] :=
  les_update_skip_step wEnv [] 1 2 wSt (by decide)

/-- C2: on every full-recompute step, whenever the filter operators are an
averaging (nonnegative mass-matrix weights whose rows are normalised by the
lumped inverse), the `Cs` field actually multiplied into the eddy-viscosity
formula is at most 0.09 at every node, for arbitrary behaviours of the
external helpers — in particular for arbitrary `JLM/JMM` ratios. -/
theorem cs_used_in_nut_le_clip {n : ℕ} (env : LESEnv n) (u_ab : List (Fld n))
    (tstep K : ℕ) (st : LESState n) (hstep : tstep % K = 0)
    (hM : ∀ i j, 0 ≤ st.G_matr i j) (hGu : ∀ i, 0 ≤ st.G_under i)
    (hrow : ∀ i, st.G_under i * Finset.univ.sum (fun j => st.G_matr i j) = 1) :
    ∀ i, (les_update env u_ab tstep K st).Cs i ≤ 9/100 := by
  intro i
  have hpost : (les_update env u_ab tstep K st).Cs =
      tophatfilter st.G_matr st.G_under 1 2
        (cs_clip_update (les_step_J env u_ab st).JLM
          (les_step_J env u_ab st).JMM) := by
    unfold les_update
    rw [if_neg (by simp [hstep])]
    rfl
  rw [hpost]
  exact tophatfilter_le st.G_matr st.G_under 1 (by norm_num) (by norm_num)
    hM hGu hrow (9/100) 2 _ (fun j => npClipMax_le _ _) i

/-- Environment realising the pathological ratio `JLM/JMM = 100`. -/
def wEnvRatio100 : LESEnv 1 :=
  { wEnv with lagrange_average := fun _ _ _ => (fun _ => 100, fun _ => 1) }

/-- Witness for C2: with `JLM/JMM = 100` on the concrete fixture the `Cs`
value used in the viscosity formula is still at most 0.09. -/
theorem cs_used_in_nut_le_clip_witness :
    (les_update wEnvRatio100 [] 4 2 wSt).Cs 0 ≤ 9/100 :=
  cs_used_in_nut_le_clip wEnvRatio100 [] 4 2 wSt (by decide)
    (by simp [wSt, les_setup]) (by simp [wSt, les_setup])
    (by simp [wSt, les_setup]) 0

/-- C1 (amended): on every full-recompute step the coefficient field is
recomputed as the ratio `JLM/JMM` (the square of the model coefficient),
clipped above at 0.09 and smoothed by two pure top-hat passes, and the
eddy-viscosity field is set to `Cs * delta_CG1_sq * |S|` (the stored field
already being the squared coefficient) with the nut boundary conditions
re-applied. -/
theorem les_update_full_recompute {n : ℕ} (env : LESEnv n)
    (u_ab : List (Fld n)) (tstep K : ℕ) (st : LESState n)
    (hstep : tstep % K = 0) :
    (les_update env u_ab tstep K st).JLM = (les_step_J env u_ab st).JLM ∧
    (les_update env u_ab tstep K st).JMM = (les_step_J env u_ab st).JMM ∧
    (les_update env u_ab tstep K st).Cs =
      tophatfilter st.G_matr st.G_under 1 2
        (cs_clip_update (les_step_J env u_ab st).JLM
          (les_step_J env u_ab st).JMM) ∧
    (les_update env u_ab tstep K st).nut =
      applyBCs st.bcs_nut (fun i =>
        (les_update env u_ab tstep K st).Cs i * st.delta_CG1_sq i *
          (les_Mres env u_ab st).magS i) := by
  unfold les_update
  rw [if_neg (by simp [hstep])]
  exact ⟨rfl, rfl, rfl, rfl⟩

/-- Witness for C1 (amended) on the concrete fixture with ratio 100 at a
full-recompute step. -/
theorem les_update_full_recompute_witness :
    (les_update wEnvRatio100 [] 4 2 wSt).JLM =
      (les_step_J wEnvRatio100 [] wSt).JLM ∧
    (les_update wEnvRatio100 [] 4 2 wSt).JMM =
      (les_step_J wEnvRatio100 [] wSt).JMM ∧
    (les_update wEnvRatio100 [] 4 2 wSt).Cs =
      tophatfilter wSt.G_matr wSt.G_under 1 2
        (cs_clip_update (les_step_J wEnvRatio100 [] wSt).JLM
          (les_step_J wEnvRatio100 [] wSt).JMM) ∧
    (les_update wEnvRatio100 [] 4 2 wSt).nut =
      applyBCs wSt.bcs_nut (fun i =>
        (les_update wEnvRatio100 [] 4 2 wSt).Cs i * wSt.delta_CG1_sq i *
          (les_Mres wEnvRatio100 [] wSt).magS i) :=
  les_update_full_recompute wEnvRatio100 [] 4 2 wSt (by decide)

/-- Reading of claim C1 as written, for the coefficient field: `Cs` is
recomputed as `sqrt(JLM/JMM)` — supplied here as the field `sqrtRatio`
whose square is the ratio — then clipped at 0.09 and spatially filtered. -/
def claimC1_Cs {n : ℕ} (G_matr : Mat n) (G_under : Fld n)
    (sqrtRatio : Fld n) : Fld n :=
  tophatfilter G_matr G_under 1 2 (fun i => npClipMax (sqrtRatio i) (9/100))

/-- Reading of claim C1 as written, for the eddy-viscosity field:
`nut = Cs^2 * delta^2 * |S|` with boundary conditions re-applied, where
`Cs` is the clipped filtered square root of the ratio. -/
def claimC1_nut {n : ℕ} (bcs : BCList n) (G_matr : Mat n) (G_under : Fld n)
    (sqrtRatio delta_sq magS : Fld n) : Fld n :=
  applyBCs bcs (fun i =>
    claimC1_Cs G_matr G_under sqrtRatio i ^ 2 * delta_sq i * magS i)

/-- Environment realising the ratio `JLM/JMM = 1/400`. -/
def wEnvRatioSmall : LESEnv 1 :=
  { wEnv with lagrange_average := fun _ _ _ => (fun _ => 1, fun _ => 400) }

/-- C1 (counterexample): the code does not store `sqrt(JLM/JMM)` in `Cs`
and does not square the stored field in the viscosity formula.  With
`JLM/JMM = 1/400` (square root `1/20`) the code stores `1/400` while the
claim predicts `1/20`; with `JLM/JMM = 100` (square root `10`) the code
sets `nut = 9/100` while the claim predicts `(9/100)^2 = 81/10000`. -/
theorem claimC1_counterexample :
    ((1:ℚ)/20) ^ 2 = (1:ℚ)/400 ∧
    (les_update wEnvRatioSmall [] 2 1 wSt).Cs 0 = 1/400 ∧
    claimC1_Cs wSt.G_matr wSt.G_under (fun _ => 1/20) 0 = 1/20 ∧
    (les_update wEnvRatioSmall [] 2 1 wSt).Cs 0 ≠
      claimC1_Cs wSt.G_matr wSt.G_under (fun _ => 1/20) 0 ∧
    ((10:ℚ)) ^ 2 = (100:ℚ)/1 ∧
    (les_update wEnvRatio100 [] 2 1 wSt).nut 0 = 9/100 ∧
    claimC1_nut wSt.bcs_nut wSt.G_matr wSt.G_under (fun _ => 10)
      wSt.delta_CG1_sq (fun _ => 1) 0 = 81/10000 ∧
    (les_update wEnvRatio100 [] 2 1 wSt).nut 0 ≠
      claimC1_nut wSt.bcs_nut wSt.G_matr wSt.G_under (fun _ => 10)
        wSt.delta_CG1_sq (fun _ => 1) 0 := by
  have hCs : (les_update wEnvRatioSmall [] 2 1 wSt).Cs 0 = 1/400 := by
    norm_num [les_update, les_update_full, les_step_J, les_step_M, les_Mres,
      les_step_L, les_step_u, cs_clip_update, npClipMax, tophatfilter,
      tophatPass, wSt, wEnv, wEnvRatioSmall, les_setup, Nat.mod_one]
  have hclaimCs : claimC1_Cs wSt.G_matr wSt.G_under (fun _ => 1/20) 0 = 1/20 := by
    norm_num [claimC1_Cs, npClipMax, tophatfilter, tophatPass, wSt, les_setup]
  have hnut : (les_update wEnvRatio100 [] 2 1 wSt).nut 0 = 9/100 := by
    norm_num [les_update, les_update_full, les_step_J, les_step_M, les_Mres,
      les_step_L, les_step_u, cs_clip_update, npClipMax, tophatfilter,
      tophatPass, applyBCs, wSt, wEnv, wEnvRatio100, les_setup, Nat.mod_one]
  have hclaimNut : claimC1_nut wSt.bcs_nut wSt.G_matr wSt.G_under (fun _ => 10)
      wSt.delta_CG1_sq (fun _ => 1) 0 = 81/10000 := by
    norm_num [claimC1_nut, claimC1_Cs, npClipMax, tophatfilter, tophatPass,
      applyBCs, wSt, les_setup]
  refine ⟨by norm_num, hCs, hclaimCs, ?_, by norm_num, hnut, hclaimNut, ?_⟩
  · rw [hCs, hclaimCs]
    norm_num
  · rw [hnut, hclaimNut]
    norm_num

/-- C4 (counterexample): in the 2-D fixture the `Lij` list allocated at
setup has `dim*dim = 4` entries, not `tensdim = 3`. -/
theorem claimC4_counterexample :
    wSt.tensdim = 3 ∧ wSt.Lij.length = 4 ∧ wSt.Lij.length ≠ wSt.tensdim := by
  refine ⟨rfl, ?_, ?_⟩ <;> simp [wSt, les_setup]

/-- C4 (amended): the tensor component lists `Lij`, `Mij`, `Sijcomps`,
`Sijfcomps` are allocated with `dim*dim` nodal scalar fields each (4 in
2-D, 9 in 3-D); the pipeline indexes them through the fixed pairs list
((0,0),(0,1),(1,1)) in 2-D and ((0,0),(0,1),(0,2),(1,1),(1,2),(2,2)) in
3-D, whose length is `tensdim` — 3 in 2-D and 6 in 3-D. -/
theorem tensor_storage_layout {n : ℕ} (dim : ℕ) (deltaCG1 lumped : Fld n)
    (G_matr : Mat n) (assembleDeriv : ℕ → Mat n)
    (bcs_nut : BCList n) (bcs_u_CG1 : List (BCList n)) :
    (les_setup dim deltaCG1 lumped G_matr assembleDeriv bcs_nut bcs_u_CG1).Lij.length
      = dim * dim ∧
    (les_setup dim deltaCG1 lumped G_matr assembleDeriv bcs_nut bcs_u_CG1).Mij.length
      = dim * dim ∧
    (les_setup dim deltaCG1 lumped G_matr assembleDeriv bcs_nut bcs_u_CG1).Sijcomps.length
      = dim * dim ∧
    (les_setup dim deltaCG1 lumped G_matr assembleDeriv bcs_nut bcs_u_CG1).Sijfcomps.length
      = dim * dim ∧
    (les_setup dim deltaCG1 lumped G_matr assembleDeriv bcs_nut bcs_u_CG1).tensdim
      = (les_setup dim deltaCG1 lumped G_matr assembleDeriv bcs_nut bcs_u_CG1).uiuj_pairs.length ∧
    (les_setup dim deltaCG1 lumped G_matr assembleDeriv bcs_nut bcs_u_CG1).tensdim
      = (if dim = 3 then 6 else 3) ∧
    (les_setup dim deltaCG1 lumped G_matr assembleDeriv bcs_nut bcs_u_CG1).uiuj_pairs
      = (if dim = 3 then uiuj_pairs_3d else uiuj_pairs_2d) := by
  refine ⟨by simp [les_setup], by simp [les_setup], by simp [les_setup],
    by simp [les_setup], ?_, by simp [les_setup], by simp [les_setup]⟩
  by_cases h : dim = 3 <;> simp [les_setup, h, uiuj_pairs_3d, uiuj_pairs_2d]

/-- C7: the test-filter ratio passed to `compute_Mij` is the fixed positive
constant 2; the result of `les_update` is insensitive to the behaviour of
`compute_Mij` at every other ratio. -/
theorem alpha_fixed_constant {n : ℕ} (e : LESEnv n)
    (f : ℚ → LESState n → List (Fld n) → List (Fld n) → MijResult n)
    (u_ab : List (Fld n)) (tstep K : ℕ) (st : LESState n)
    (hM2 : e.compute_Mij 2 = f 2) :
    alpha = 2 ∧ 0 < alpha ∧
    les_update e u_ab tstep K st =
      les_update { e with compute_Mij := f } u_ab tstep K st := by
  refine ⟨rfl, by norm_num [alpha], ?_⟩
  unfold les_update
  split
  · rfl
  · unfold les_update_full les_step_J les_step_M les_Mres les_step_L les_step_u
    simp only [alpha]
    rw [hM2]

/-- Alternative `compute_Mij` agreeing with the fixture only at ratio 2. -/
def wf : ℚ → LESState 1 → List (Fld 1) → List (Fld 1) → MijResult 1 :=
  fun a st u uf =>
    if a = 2 then wEnv.compute_Mij a st u uf
    else { Mij := [], Sijcomps := [], Sijfcomps := [], magS := fun _ => 0 }

/-- Witness for C7: swapping `compute_Mij` for a function that agrees with
the fixture only at ratio 2 leaves the update result unchanged. -/
theorem alpha_fixed_constant_witness :
    alpha = 2 ∧ 0 < alpha ∧
    les_update wEnv [] 2 1 wSt =
      les_update { wEnv with compute_Mij := wf } [] 2 1 wSt :=
  alpha_fixed_constant wEnv wf [] 2 1 wSt
    (by funext st u uf; rw [wf, if_pos rfl])

end DynamicLagrangian
